import Mathlib

/-!
Shallow embedding of the order-fulfillment core of ldc-shop.

The embedded code is `processOrderFulfillment` and its helper
`fulfillSiyuanToken` (the fulfillment allocator), together with the SQL
claim queries it issues against the `cards` table.  The database is
modelled as an explicit state (`DBState`) holding the `orders`, `cards`
and `products` rows; each SQL statement becomes a pure function on that
state.  Timestamps (`NOW()`, `new Date()`) are a natural number supplied
by the environment; money amounts (JS numbers obtained via `parseFloat`)
are modelled as rationals.  The external token issuer
(`createTokenByLinuxDoId`) and the product-type predicate
(`isPaymentOrder`), which live outside the verified file, are
uninterpreted functions carried in the environment, and the possibility
that the reserved-card claim query fails at the database level (the
legacy-schema case) is modelled by an optional injected `DBError`.
-/

/-- A row of the `cards` table.  `is_used` is nullable in the schema
(the queries read it through `COALESCE(is_used, false)`), hence
`Option Bool`. -/
structure Card where
  id : Nat
  product_id : String
  card_key : String
  is_used : Option Bool
  used_at : Option Nat
  reserved_order_id : Option String
  reserved_at : Option Nat
deriving Repr, DecidableEq

/-- A row of the `orders` table.  `amount` is stored as a string in the
database and read through `parseFloat`; we model the parsed rational
value directly.  `quantity` models the JS number, where `0` is falsy
(`order.quantity || 1`). -/
structure Order where
  orderId : String
  productId : String
  quantity : Nat
  amount : ℚ
  status : String
  cardKey : Option String
  tradeNo : Option String
  paidAt : Option Nat
  deliveredAt : Option Nat
  userId : Option String
deriving Repr, DecidableEq

/-- The part of a `products` row the allocator reads. -/
structure Product where
  id : String
  fulfillmentType : Option String
deriving Repr, DecidableEq

/-- The database state seen by one fulfillment call. -/
structure DBState where
  orders : List Order
  cards : List Card
  products : List Product
deriving Repr, DecidableEq

/-- Result of `createTokenByLinuxDoId` (the external issuer client):
`{ success, token?, error? }`. -/
structure CreateTokenResult where
  success : Bool
  token : Option String
  error : Option String
deriving Repr, DecidableEq

/-- A database error as the catch block sees it: `error.message` and
`JSON.stringify(error)`. -/
structure DBError where
  message : String
  serialized : String
deriving Repr, DecidableEq

/-- The distinct throw sites of `processOrderFulfillment`. -/
inductive FulfillError where
  | orderNotFound (orderId : String)
  | amountMismatch (orderMoney paid : ℚ)
  | dbError (e : DBError)
deriving Repr, DecidableEq

/-- The `{ success, status }` value returned to the caller. -/
structure FulfillResult where
  success : Bool
  status : String
deriving Repr, DecidableEq

/-- The ambient world of one call: the clock, the two external
functions, and an optional database error raised by the reserved-card
claim query (`none` on a schema that has the reservation columns and a
healthy database). -/
structure Env where
  now : Nat
  isPaymentOrder : String → Bool
  issue : String → String → CreateTokenResult
  reservedQueryError : Option DBError

/-- JS `Math.abs` on the rational model of JS numbers (kernel-computable;
`mathAbs_eq_abs` below identifies it with `|·|`). -/
def mathAbs (q : ℚ) : ℚ :=
  if q < 0 then -q else q

/-- Subtraction of JS numbers on the rational model, written out through
`mkRat` so that it is kernel-computable; `ratSub_eq_sub` below identifies
it with rational subtraction. -/
def ratSub (a b : ℚ) : ℚ :=
  mkRat (a.num * b.den - b.num * a.den) (a.den * b.den)

/-- The literal `0.01` of the amount-tolerance check. -/
def amountTolerance : ℚ :=
  mkRat 1 100

/-- JS `String.prototype.includes`: substring test. -/
def strIncludes (s pat : String) : Bool :=
  decide (pat.toList <:+: s.toList)

/-- `UPDATE orders SET ... WHERE order_id = orderId` on the orders list. -/
def updateOrder (os : List Order) (orderId : String) (f : Order → Order) : List Order :=
  os.map fun o => if o.orderId == orderId then f o else o

/-- `order.quantity || 1`: `0` is falsy in JS. -/
def effQuantity (o : Order) : Nat :=
  if o.quantity == 0 then 1 else o.quantity

/-- The token label `ldc-shop-${orderId}${quantity > 1 ? `-${i+1}` : ''}`
passed to the issuer for unit `i` (0-based). -/
def tokenName (orderId : String) (quantity i : Nat) : String :=
  "ldc-shop-" ++ orderId ++ (if quantity > 1 then "-" ++ toString (i + 1) else "")

/-- The token-collection loop of `fulfillSiyuanToken`, starting at unit
`i` with `rem` units left: push while `result.success && result.token`
is truthy, break at the first failure. -/
def collectTokensFrom (issue : String → String → CreateTokenResult)
    (linuxDoId orderId : String) (quantity : Nat) : Nat → Nat → List String
  | _, 0 => []
  | i, rem + 1 =>
    let r := issue linuxDoId (tokenName orderId quantity i)
    if r.success && r.token.getD "" != "" then
      r.token.getD "" :: collectTokensFrom issue linuxDoId orderId quantity (i + 1) rem
    else
      []

/-- The whole `for (let i = 0; i < quantity; i++)` token loop. -/
def collectTokens (issue : String → String → CreateTokenResult)
    (linuxDoId orderId : String) (quantity : Nat) : List String :=
  collectTokensFrom issue linuxDoId orderId quantity 0 quantity

/-- The `SET` payload `{ status: 'paid', paidAt: new Date(), tradeNo }`. -/
def paidUpdate (now : Nat) (tradeNo : String) (o : Order) : Order :=
  { o with status := "paid", paidAt := some now, tradeNo := some tradeNo }

/-- The `SET` payload `{ status: 'delivered', paidAt, deliveredAt, tradeNo,
cardKey: keys.join('\n') }`. -/
def deliveredUpdate (now : Nat) (tradeNo : String) (keys : List String) (o : Order) : Order :=
  { o with status := "delivered", paidAt := some now, deliveredAt := some now,
           tradeNo := some tradeNo, cardKey := some (String.intercalate "\n" keys) }

/-- `fulfillSiyuanToken`: external-token fulfillment for one order. -/
def fulfillSiyuanToken (env : Env) (st : DBState) (orderId : String)
    (order : Order) (tradeNo : String) : DBState × FulfillResult :=
  if order.userId.getD "" == "" then
    ({ st with orders := updateOrder st.orders orderId (paidUpdate env.now tradeNo) },
      { success := true, status := "processed" })
  else
    let linuxDoId := order.userId.getD ""
    let quantity := effQuantity order
    let tokenKeys := collectTokens env.issue linuxDoId orderId quantity
    if tokenKeys.length > 0 then
      ({ st with orders := updateOrder st.orders orderId (deliveredUpdate env.now tradeNo tokenKeys) },
        { success := true, status := "processed" })
    else
      ({ st with orders := updateOrder st.orders orderId (paidUpdate env.now tradeNo) },
        { success := true, status := "processed" })

/-- The `SET` clause of the reserving claim queries: mark used and clear
the reservation columns. -/
def markCardUsedClearRes (now : Nat) (c : Card) : Card :=
  { c with is_used := some true, used_at := some now,
           reserved_order_id := none, reserved_at := none }

/-- The `SET` clause of the legacy (non-reserving) claim query: only
`is_used` and `used_at`. -/
def markCardUsedLegacy (now : Nat) (c : Card) : Card :=
  { c with is_used := some true, used_at := some now }

/-- The reserved-card claim query:
`UPDATE cards SET ... WHERE reserved_order_id = orderId AND
COALESCE(is_used, false) = false RETURNING card_key` (no LIMIT).
Returns the updated rows list and the returned keys, in row order. -/
def claimReserved (orderId : String) (now : Nat) : List Card → List Card × List String
  | [] => ([], [])
  | c :: cs =>
    let r := claimReserved orderId now cs
    if c.reserved_order_id == some orderId && c.is_used.getD false == false then
      (markCardUsedClearRes now c :: r.1, c.card_key :: r.2)
    else
      (c :: r.1, r.2)

/-- `reserved_at IS NULL OR reserved_at < NOW() - INTERVAL '1 minute'`
(time unit: seconds). -/
def reservationFreeOrExpired (now : Nat) (c : Card) : Bool :=
  match c.reserved_at with
  | none => true
  | some r => r + 60 < now

/-- The `WHERE` clause of the reserving pool claim query. -/
def poolEligible (productId : String) (now : Nat) (c : Card) : Bool :=
  c.product_id == productId && c.is_used.getD false == false
    && reservationFreeOrExpired now c

/-- The `WHERE` clause of the legacy pool claim query. -/
def legacyEligible (productId : String) (c : Card) : Bool :=
  c.product_id == productId && c.is_used.getD false == false

/-- An `UPDATE ... WHERE id IN (SELECT id ... LIMIT n FOR UPDATE SKIP
LOCKED) RETURNING card_key` claim query: take the first `n` rows
satisfying `elig` in row order and rewrite them with `mark`.  (No
concurrent transaction holds row locks within one atomic call, so SKIP
LOCKED skips nothing here.) -/
def claimUpTo (elig : Card → Bool) (mark : Card → Card) : Nat → List Card → List Card × List String
  | _, [] => ([], [])
  | 0, cs => (cs, [])
  | n + 1, c :: cs =>
    if elig c then
      let r := claimUpTo elig mark n cs
      (mark c :: r.1, c.card_key :: r.2)
    else
      let r := claimUpTo elig mark (n + 1) cs
      (c :: r.1, r.2)

/-- `error?.message?.includes('reserved_order_id') ||
error?.message?.includes('reserved_at') ||
JSON.stringify(error).includes('42703')`. -/
def errorTriggersFallback (e : DBError) : Bool :=
  strIncludes e.message "reserved_order_id" || strIncludes e.message "reserved_at"
    || strIncludes e.serialized "42703"

/-- The card-claiming phase of the `db.transaction` block: reserved
claim first (or its catch), then, if still short of `quantity`, the pool
claim (reserving or legacy).  Returns the updated cards and all claimed
keys, or the rethrown database error. -/
def claimCards (env : Env) (orderId productId : String) (quantity : Nat)
    (cs : List Card) : Except FulfillError (List Card × List String) :=
  match env.reservedQueryError with
  | some e =>
    if errorTriggersFallback e then
      if 0 < quantity then
        let r := claimUpTo (legacyEligible productId) (markCardUsedLegacy env.now) quantity cs
        .ok (r.1, r.2)
      else
        .ok (cs, [])
    else
      .error (.dbError e)
  | none =>
    let r := claimReserved orderId env.now cs
    if r.2.length < quantity then
      let needed := quantity - r.2.length
      let p := claimUpTo (poolEligible productId env.now) (markCardUsedClearRes env.now) needed r.1
      .ok (p.1, r.2 ++ p.2)
    else
      .ok (r.1, r.2)

/-- `processOrderFulfillment(orderId, paidAmount, tradeNo)`: the entry
point invoked by the payment-confirmation webhook. -/
def processOrderFulfillment (env : Env) (st : DBState) (orderId : String)
    (paidAmount : ℚ) (tradeNo : String) :
    Except FulfillError (DBState × FulfillResult) :=
  match st.orders.find? (fun o => o.orderId == orderId) with
  | none => .error (.orderNotFound orderId)
  | some order =>
    if amountTolerance < mathAbs (ratSub paidAmount order.amount) then
      .error (.amountMismatch order.amount paidAmount)
    else if env.isPaymentOrder order.productId then
      if order.status == "pending" || order.status == "cancelled" then
        .ok ({ st with orders := updateOrder st.orders orderId (paidUpdate env.now tradeNo) },
             { success := true, status := "processed" })
      else
        .ok (st, { success := true, status := "processed" })
    else if order.status == "pending" || order.status == "cancelled" then
      if ((st.products.find? (fun p => p.id == order.productId)).bind
            (fun p => p.fulfillmentType)) == some "siyuan_token" then
        .ok (fulfillSiyuanToken env st orderId order tradeNo)
      else
        match claimCards env orderId order.productId (effQuantity order) st.cards with
        | .error e => .error e
        | .ok r =>
          if r.2.length > 0 then
            let os := updateOrder st.orders orderId (deliveredUpdate env.now tradeNo r.2)
            .ok ({ st with cards := r.1, orders := os },
                 { success := true, status := "processed" })
          else
            let os := updateOrder st.orders orderId (paidUpdate env.now tradeNo)
            .ok ({ st with cards := r.1, orders := os },
                 { success := true, status := "processed" })
    else
      .ok (st, { success := true, status := "already_processed" })

deriving instance DecidableEq for Except

/-- The row of the target order after a successful call (`none` when the
call threw or the order does not exist). -/
def orderAfter (env : Env) (st : DBState) (orderId : String) (paidAmount : ℚ)
    (tradeNo : String) : Option Order :=
  match processOrderFulfillment env st orderId paidAmount tradeNo with
  | .ok r => r.1.orders.find? (fun o => o.orderId == orderId)
  | .error _ => none

/-- The status of the target order after a successful call. -/
def orderStatusAfter (env : Env) (st : DBState) (orderId : String)
    (paidAmount : ℚ) (tradeNo : String) : Option String :=
  (orderAfter env st orderId paidAmount tradeNo).map (fun o => o.status)

/-- The arguments of one `processOrderFulfillment` invocation. -/
structure Call where
  orderId : String
  paidAmount : ℚ
  tradeNo : String

/-- Run one fulfillment call against the database state: a call that
throws commits nothing (the transaction rolls back), so the state is
unchanged. -/
def applyStep (st : DBState) (ec : Env × Call) : DBState :=
  match processOrderFulfillment ec.1 st ec.2.orderId ec.2.paidAmount ec.2.tradeNo with
  | .ok r => r.1
  | .error _ => st

/-- Run a sequence of fulfillment calls, each with its own environment. -/
def runSteps (st : DBState) (steps : List (Env × Call)) : DBState :=
  steps.foldl applyStep st

/-- The database state after the first `k` calls of the sequence. -/
def stateAfter (st : DBState) (steps : List (Env × Call)) (k : Nat) : DBState :=
  runSteps st (steps.take k)

/-- Whether the card at position `i` is consumed (`COALESCE(is_used,
false)` reads true). -/
def cardUsed (st : DBState) (i : Nat) : Bool :=
  match st.cards.get? i with
  | some c => c.is_used.getD false
  | none => false

/-- Call `k` of the sequence consumes the card at position `i`: the card
is unconsumed before the call and consumed after it. -/
def consumesAt (st : DBState) (steps : List (Env × Call)) (k i : Nat) : Prop :=
  cardUsed (stateAfter st steps k) i = false ∧ cardUsed (stateAfter st steps (k + 1)) i = true


instance (st : DBState) (steps : List (Env × Call)) (k i : Nat) :
    Decidable (consumesAt st steps k i) := by
  unfold consumesAt
  infer_instance

/-! ## Concrete fixtures for the witnesses and counterexamples -/

/-- Card-pool environment: failing issuer, no payment products, healthy
database. -/
def envW : Env :=
  ⟨1000, fun _ => false, fun _ _ => ⟨false, none, none⟩, none⟩

/-- Environment whose issuer succeeds for the first unit of order `o1`
(quantity 2) and fails afterwards. -/
def envTok1 : Env :=
  ⟨1000, fun _ => false,
    fun _ name => if name == "ldc-shop-o1-1" then ⟨true, some "tok1", none⟩
      else ⟨false, none, some "user not found"⟩,
    none⟩

/-- Environment injecting a legacy-schema error (missing reservation
columns) into the reserved-card claim query. -/
def envLegacy : Env :=
  ⟨1000, fun _ => false, fun _ _ => ⟨false, none, none⟩,
    some ⟨"column reserved_order_id does not exist", "42703"⟩⟩

/-- Environment injecting an unrelated database error into the
reserved-card claim query. -/
def envBoom : Env :=
  ⟨1000, fun _ => false, fun _ _ => ⟨false, none, none⟩,
    some ⟨"deadlock detected", "40P01"⟩⟩

def cardW (i : Nat) : Card := ⟨i, "p", "K" ++ toString i, none, none, none, none⟩

/-- A card soft-reserved for order `o1`. -/
def cardR : Card := ⟨9, "p", "KR", none, none, some "o1", some 100⟩

/-- A card with a live (unexpired) reservation for another order at
clock 1000: reserved at 990, and 990 + 60 is not before 1000. -/
def cardLive : Card := ⟨3, "p", "KL", none, none, some "o9", some 990⟩

def productW : Product := ⟨"p", none⟩

/-- The siyuan-token product. -/
def productTok : Product := ⟨"p", some "siyuan_token"⟩

def orderW (oid : String) (q : Nat) : Order :=
  ⟨oid, "p", q, 1, "pending", none, none, none, none, none⟩

/-- A pending order with a LinuxDO user attached. -/
def orderU (q : Nat) : Order := ⟨"o1", "p", q, 1, "pending", none, none, none, none, some "u7"⟩

/-- An already delivered order. -/
def orderD : Order := ⟨"o1", "p", 1, 1, "delivered", some "K1", some "t0", some 5, some 6, none⟩

/-- Two pending one-card orders racing over a single card. -/
def stRace : DBState := ⟨[orderW "o1" 1, orderW "o2" 1], [cardW 1], [productW]⟩

def stepsRace : List (Env × Call) := [(envW, ⟨"o1", 1, "t1"⟩), (envW, ⟨"o2", 1, "t2"⟩)]

/-- A pending order for 3 units over a pool of 2 free cards. -/
def stPartial : DBState := ⟨[orderW "o1" 3], [cardW 1, cardW 2], [productW]⟩

/-- An already delivered order with one free card left. -/
def stDone : DBState := ⟨[orderD], [cardW 1], [productW]⟩

/-- A pending quantity-2 order for the siyuan-token product. -/
def stTok : DBState := ⟨[orderU 2], [], [productTok]⟩

/-- A pending order with no stock at all. -/
def stNoStock : DBState := ⟨[orderW "o1" 1], [], [productW]⟩

/-- A pending order whose single needed card is already reserved for it,
with one more free card in the pool. -/
def stReserved : DBState := ⟨[orderW "o1" 1], [cardR, cardW 1], [productW]⟩

/-! ## Basic lemmas about the embedded operations -/

theorem ratSub_eq_sub (a b : ℚ) : ratSub a b = a - b :=
  (Rat.sub_def' a b).symm

theorem mathAbs_eq_abs (q : ℚ) : mathAbs q = |q| := by
  unfold mathAbs
  split
  · exact (abs_of_neg (by assumption)).symm
  · exact (abs_of_nonneg (not_lt.mp (by assumption))).symm

theorem amountTolerance_eq : amountTolerance = 1 / 100 := by
  rw [amountTolerance, Rat.mkRat_eq_divInt, Rat.divInt_eq_div]
  norm_num

theorem find?_updateOrder (os : List Order) (oid : String) (f : Order → Order)
    (hf : ∀ o, (f o).orderId = o.orderId) :
    (updateOrder os oid f).find? (fun o => o.orderId == oid)
      = (os.find? (fun o => o.orderId == oid)).map f := by
  induction os with
  | nil => rfl
  | cons o os ih =>
    cases h : (o.orderId == oid) with
    | true =>
      simp only [updateOrder, List.map_cons] at *
      rw [if_pos h]
      simp only [List.find?_cons, hf, h]
      rfl
    | false =>
      simp only [updateOrder, List.map_cons] at *
      rw [if_neg (by simp [h])]
      simp only [List.find?_cons, hf, h]
      exact ih

theorem fulfillSiyuanToken_cards (env : Env) (st : DBState) (orderId : String)
    (order : Order) (tradeNo : String) :
    (fulfillSiyuanToken env st orderId order tradeNo).1.cards = st.cards := by
  unfold fulfillSiyuanToken
  split
  · rfl
  · dsimp only
    split <;> rfl

theorem claimReserved_fst_length (orderId : String) (now : Nat) (cs : List Card) :
    (claimReserved orderId now cs).1.length = cs.length := by
  induction cs with
  | nil => rfl
  | cons c cs ih =>
    simp only [claimReserved]
    split <;> simp [ih]

theorem claimReserved_get (orderId : String) (now : Nat) (cs : List Card) (i : Nat) :
    (claimReserved orderId now cs).1.get? i = cs.get? i
      ∨ ∃ c, cs.get? i = some c
          ∧ (c.reserved_order_id == some orderId && c.is_used.getD false == false) = true
          ∧ (claimReserved orderId now cs).1.get? i = some (markCardUsedClearRes now c) := by
  induction cs generalizing i with
  | nil => left; rfl
  | cons c cs ih =>
    cases h : (c.reserved_order_id == some orderId && c.is_used.getD false == false) with
    | true =>
      cases i with
      | zero =>
        right
        refine ⟨c, rfl, h, ?_⟩
        simp only [claimReserved, h, if_true]
        rfl
      | succ j =>
        simp only [claimReserved, h, if_true, List.get?_cons_succ]
        exact ih j
    | false =>
      cases i with
      | zero =>
        left
        simp only [claimReserved, h, Bool.false_eq_true, if_false]
        rfl
      | succ j =>
        simp only [claimReserved, h, Bool.false_eq_true, if_false, List.get?_cons_succ]
        exact ih j

theorem claimReserved_keys (orderId : String) (now : Nat) (cs : List Card) :
    (claimReserved orderId now cs).2
      = (cs.filter (fun c => c.reserved_order_id == some orderId
          && c.is_used.getD false == false)).map (fun c => c.card_key) := by
  induction cs with
  | nil => rfl
  | cons c cs ih =>
    cases h : (c.reserved_order_id == some orderId && c.is_used.getD false == false) with
    | true =>
      simp only [claimReserved, h, if_true, List.filter_cons, List.map_cons]
      rw [ih]
    | false =>
      simp only [claimReserved, h, Bool.false_eq_true, if_false, List.filter_cons]
      exact ih

theorem claimUpTo_get (elig : Card → Bool) (mark : Card → Card) (n : Nat)
    (cs : List Card) (i : Nat) :
    (claimUpTo elig mark n cs).1.get? i = cs.get? i
      ∨ ∃ c, cs.get? i = some c ∧ elig c = true
          ∧ (claimUpTo elig mark n cs).1.get? i = some (mark c) := by
  induction cs generalizing n i with
  | nil => left; cases n <;> rfl
  | cons c cs ih =>
    cases n with
    | zero => left; rfl
    | succ m =>
      cases h : elig c with
      | true =>
        cases i with
        | zero =>
          right
          refine ⟨c, rfl, h, ?_⟩
          simp only [claimUpTo, h, if_true]
          rfl
        | succ j =>
          simp only [claimUpTo, h, if_true, List.get?_cons_succ]
          exact ih m j
      | false =>
        cases i with
        | zero =>
          left
          simp only [claimUpTo, h, Bool.false_eq_true, if_false]
          rfl
        | succ j =>
          simp only [claimUpTo, h, Bool.false_eq_true, if_false, List.get?_cons_succ]
          exact ih (m + 1) j

theorem claimUpTo_fst_length (elig : Card → Bool) (mark : Card → Card) (n : Nat)
    (cs : List Card) : (claimUpTo elig mark n cs).1.length = cs.length := by
  induction cs generalizing n with
  | nil => cases n <;> rfl
  | cons c cs ih =>
    cases n with
    | zero => rfl
    | succ m =>
      cases h : elig c with
      | true => simp only [claimUpTo, h, if_true, List.length_cons, ih m]
      | false => simp only [claimUpTo, h, Bool.false_eq_true, if_false, List.length_cons, ih (m + 1)]

theorem claimUpTo_keys_length (elig : Card → Bool) (mark : Card → Card) (n : Nat)
    (cs : List Card) : (claimUpTo elig mark n cs).2.length ≤ n := by
  induction cs generalizing n with
  | nil => cases n <;> simp [claimUpTo]
  | cons c cs ih =>
    cases n with
    | zero => simp [claimUpTo]
    | succ m =>
      cases h : elig c with
      | true =>
        simp only [claimUpTo, h, if_true, List.length_cons]
        exact Nat.succ_le_succ (ih m)
      | false =>
        simp only [claimUpTo, h, Bool.false_eq_true, if_false]
        exact ih (m + 1)

theorem claimUpTo_keys_length_eq (elig : Card → Bool) (mark : Card → Card)
    (n : Nat) (cs : List Card) (h : cs.countP elig ≤ n) :
    (claimUpTo elig mark n cs).2.length = cs.countP elig := by
  induction cs generalizing n with
  | nil => cases n <;> simp [claimUpTo]
  | cons c cs ih =>
    cases he : elig c with
    | true =>
      rw [List.countP_cons_of_pos _ _ (by exact he)] at h ⊢
      cases n with
      | zero => omega
      | succ m =>
        simp only [claimUpTo, he, if_true, List.length_cons]
        rw [ih m (by omega)]
    | false =>
      rw [List.countP_cons_of_neg _ _ (by simp [he])] at h ⊢
      cases n with
      | zero =>
        have h0 : cs.countP elig = 0 := Nat.le_zero.mp h
        simp only [claimUpTo, List.length_nil, h0]
      | succ m =>
        simp only [claimUpTo, he, Bool.false_eq_true, if_false]
        exact ih (m + 1) h

theorem claimUpTo_keys_of_countP_le (elig : Card → Bool) (mark : Card → Card)
    (n : Nat) (cs : List Card) (h : cs.countP elig ≤ n) :
    (claimUpTo elig mark n cs).2 = (cs.filter elig).map (fun c => c.card_key) := by
  induction cs generalizing n with
  | nil => cases n <;> rfl
  | cons c cs ih =>
    cases he : elig c with
    | true =>
      rw [List.countP_cons_of_pos _ _ (by exact he)] at h
      cases n with
      | zero => omega
      | succ m =>
        simp only [claimUpTo, he, if_true, List.filter_cons, List.map_cons]
        rw [ih m (by omega)]
    | false =>
      rw [List.countP_cons_of_neg _ _ (by simp [he])] at h
      cases n with
      | zero =>
        have h0 : cs.countP elig = 0 := Nat.le_zero.mp h
        rw [List.countP_eq_zero] at h0
        simp only [claimUpTo, List.filter_cons, he, Bool.false_eq_true, if_false]
        rw [List.filter_eq_nil_iff.mpr ?_]
        · rfl
        · intro a ha
          simp [h0 a ha]
      | succ m =>
        simp only [claimUpTo, he, Bool.false_eq_true, if_false, List.filter_cons]
        exact ih (m + 1) h

/-! ## Used cards are invisible to every claim query -/

theorem poolEligible_of_used (pid : String) (now : Nat) (c : Card)
    (hu : c.is_used.getD false = true) : poolEligible pid now c = false := by
  simp [poolEligible, hu]

theorem legacyEligible_of_used (pid : String) (c : Card)
    (hu : c.is_used.getD false = true) : legacyEligible pid c = false := by
  simp [legacyEligible, hu]

theorem claimReserved_used_frozen (orderId : String) (now : Nat) (cs : List Card)
    (i : Nat) (c : Card) (h : cs.get? i = some c) (hu : c.is_used.getD false = true) :
    (claimReserved orderId now cs).1.get? i = some c := by
  rcases claimReserved_get orderId now cs i with h1 | ⟨c2, hc2, hcond, hout⟩
  · rw [h1, h]
  · rw [h] at hc2
    injection hc2 with hc2
    subst hc2
    rw [Bool.and_eq_true] at hcond
    have h2 := hcond.2
    rw [beq_iff_eq] at h2
    simp [hu] at h2

theorem claimUpTo_used_frozen (elig : Card → Bool) (mark : Card → Card) (n : Nat)
    (cs : List Card) (i : Nat) (c : Card)
    (helig : ∀ c2, c2.is_used.getD false = true → elig c2 = false)
    (h : cs.get? i = some c) (hu : c.is_used.getD false = true) :
    (claimUpTo elig mark n cs).1.get? i = some c := by
  rcases claimUpTo_get elig mark n cs i with h1 | ⟨c2, hc2, hcond, hout⟩
  · rw [h1, h]
  · rw [h] at hc2
    injection hc2 with hc2
    subst hc2
    rw [helig c hu] at hcond
    cases hcond

theorem claimCards_used_frozen (env : Env) (orderId productId : String) (q : Nat)
    (cs cs2 : List Card) (keys : List String)
    (hok : claimCards env orderId productId q cs = .ok (cs2, keys))
    (i : Nat) (c : Card) (h : cs.get? i = some c) (hu : c.is_used.getD false = true) :
    cs2.get? i = some c := by
  unfold claimCards at hok
  cases henv : env.reservedQueryError with
  | some e =>
    rw [henv] at hok
    dsimp only at hok
    cases hf : errorTriggersFallback e with
    | true =>
      rw [if_pos hf] at hok
      by_cases hq : 0 < q
      · rw [if_pos hq] at hok
        simp only [Except.ok.injEq, Prod.mk.injEq] at hok
        obtain ⟨h1, h2⟩ := hok
        subst h1
        exact claimUpTo_used_frozen _ _ _ _ _ _ (fun c2 hc2 => legacyEligible_of_used _ c2 hc2) h hu
      · rw [if_neg hq] at hok
        simp only [Except.ok.injEq, Prod.mk.injEq] at hok
        obtain ⟨h1, h2⟩ := hok
        subst h1
        exact h
    | false =>
      rw [if_neg (by rw [hf]; exact Bool.false_ne_true)] at hok
      cases hok
  | none =>
    rw [henv] at hok
    dsimp only at hok
    by_cases hlen : (claimReserved orderId env.now cs).2.length < q
    · rw [if_pos hlen] at hok
      simp only [Except.ok.injEq, Prod.mk.injEq] at hok
      obtain ⟨h1, h2⟩ := hok
      subst h1
      exact claimUpTo_used_frozen _ _ _ _ _ _ (fun c2 hc2 => poolEligible_of_used _ _ c2 hc2)
        (claimReserved_used_frozen orderId env.now cs i c h hu) hu
    · rw [if_neg hlen] at hok
      simp only [Except.ok.injEq, Prod.mk.injEq] at hok
      obtain ⟨h1, h2⟩ := hok
      subst h1
      exact claimReserved_used_frozen orderId env.now cs i c h hu

theorem process_used_frozen (env : Env) (st : DBState) (orderId : String)
    (pa : ℚ) (tn : String) (st2 : DBState) (res : FulfillResult)
    (hok : processOrderFulfillment env st orderId pa tn = .ok (st2, res))
    (i : Nat) (c : Card) (h : st.cards.get? i = some c)
    (hu : c.is_used.getD false = true) : st2.cards.get? i = some c := by
  unfold processOrderFulfillment at hok
  cases hfind : st.orders.find? (fun o => o.orderId == orderId) with
  | none => rw [hfind] at hok; cases hok
  | some order =>
    rw [hfind] at hok
    dsimp only at hok
    by_cases hamt : amountTolerance < mathAbs (ratSub pa order.amount)
    · rw [if_pos hamt] at hok; cases hok
    · rw [if_neg hamt] at hok
      by_cases hpay : env.isPaymentOrder order.productId = true
      · rw [if_pos hpay] at hok
        by_cases hst : (order.status == "pending" || order.status == "cancelled") = true
        · rw [if_pos hst] at hok
          simp only [Except.ok.injEq, Prod.mk.injEq] at hok
          obtain ⟨h1, h2⟩ := hok
          subst h1
          exact h
        · rw [if_neg hst] at hok
          simp only [Except.ok.injEq, Prod.mk.injEq] at hok
          obtain ⟨h1, h2⟩ := hok
          subst h1
          exact h
      · rw [if_neg hpay] at hok
        by_cases hst : (order.status == "pending" || order.status == "cancelled") = true
        · rw [if_pos hst] at hok
          by_cases hft : (((st.products.find? (fun p => p.id == order.productId)).bind
              (fun p => p.fulfillmentType)) == some "siyuan_token") = true
          · rw [if_pos hft] at hok
            simp only [Except.ok.injEq] at hok
            have h1 : (fulfillSiyuanToken env st orderId order tn).1 = st2 :=
              congrArg Prod.fst hok
            rw [← h1, fulfillSiyuanToken_cards]
            exact h
          · rw [if_neg hft] at hok
            cases hclaim : claimCards env orderId order.productId (effQuantity order) st.cards with
            | error e => rw [hclaim] at hok; cases hok
            | ok r =>
              rw [hclaim] at hok
              dsimp only at hok
              by_cases hlen : r.2.length > 0
              · rw [if_pos hlen] at hok
                simp only [Except.ok.injEq, Prod.mk.injEq] at hok
                obtain ⟨h1, h2⟩ := hok
                subst h1
                exact claimCards_used_frozen env orderId order.productId (effQuantity order)
                  st.cards r.1 r.2 (by rw [hclaim]) i c h hu
              · rw [if_neg hlen] at hok
                simp only [Except.ok.injEq, Prod.mk.injEq] at hok
                obtain ⟨h1, h2⟩ := hok
                subst h1
                exact claimCards_used_frozen env orderId order.productId (effQuantity order)
                  st.cards r.1 r.2 (by rw [hclaim]) i c h hu
        · rw [if_neg hst] at hok
          simp only [Except.ok.injEq, Prod.mk.injEq] at hok
          obtain ⟨h1, h2⟩ := hok
          subst h1
          exact h

theorem applyStep_used_frozen (st : DBState) (ec : Env × Call) (i : Nat) (c : Card)
    (h : st.cards.get? i = some c) (hu : c.is_used.getD false = true) :
    (applyStep st ec).cards.get? i = some c := by
  unfold applyStep
  cases hp : processOrderFulfillment ec.1 st ec.2.orderId ec.2.paidAmount ec.2.tradeNo with
  | ok r =>
    dsimp only
    exact process_used_frozen ec.1 st ec.2.orderId ec.2.paidAmount ec.2.tradeNo r.1 r.2
      (by rw [hp]) i c h hu
  | error e => exact h

theorem runSteps_used_frozen (steps : List (Env × Call)) (st : DBState) (i : Nat)
    (c : Card) (h : st.cards.get? i = some c) (hu : c.is_used.getD false = true) :
    (runSteps st steps).cards.get? i = some c := by
  induction steps generalizing st with
  | nil => exact h
  | cons ec steps ih => exact ih (applyStep st ec) (applyStep_used_frozen st ec i c h hu)

theorem cardUsed_mono_runSteps (steps : List (Env × Call)) (st : DBState) (i : Nat)
    (h : cardUsed st i = true) : cardUsed (runSteps st steps) i = true := by
  unfold cardUsed at *
  cases hg : st.cards.get? i with
  | none => rw [hg] at h; cases h
  | some c =>
    rw [hg] at h
    rw [runSteps_used_frozen steps st i c hg h]
    exact h

theorem cardUsed_mono_stateAfter (st : DBState) (steps : List (Env × Call))
    (k k2 : Nat) (hk : k ≤ k2) (i : Nat)
    (h : cardUsed (stateAfter st steps k) i = true) :
    cardUsed (stateAfter st steps k2) i = true := by
  have h1 : steps.take k2 = steps.take k ++ (steps.take k2).drop k := by
    conv_lhs => rw [← List.take_append_drop k (steps.take k2)]
    rw [List.take_take, Nat.min_eq_left hk]
  unfold stateAfter runSteps at *
  rw [h1, List.foldl_append]
  exact cardUsed_mono_runSteps _ _ i h

/-- C1: no double allocation.  Across any sequence of fulfillment calls
(any orders, amounts, clocks, issuers and injected errors), a card
consumed by call `k₁` is never consumed again by a later call `k₂`: once
its `is_used` flag is set, no later reserved-claim or pool-claim query
selects it, so each card belongs to at most one order and, for a given
order, a successful claim can happen at most once across retries. -/
theorem no_double_allocation (st : DBState) (steps : List (Env × Call))
    (k₁ k₂ i : Nat) (hk : k₁ < k₂) (h1 : consumesAt st steps k₁ i) :
    ¬ consumesAt st steps k₂ i := by
  intro h2
  have hm : cardUsed (stateAfter st steps k₂) i = true :=
    cardUsed_mono_stateAfter st steps (k₁ + 1) k₂ hk i h1.2
  rw [h2.1] at hm
  exact Bool.false_ne_true hm

/-- Witness for C1: two one-card orders race over a single card; the
first call consumes it, and the theorem shows the second cannot. -/
theorem no_double_allocation_witness :
    0 < 1 ∧ consumesAt stRace stepsRace 0 0 ∧ ¬ consumesAt stRace stepsRace 1 0 :=
  ⟨by decide, by decide, no_double_allocation stRace stepsRace 0 1 0 (by decide) (by decide)⟩

/-! ## Amount verification and idempotence -/

theorem claimCards_error_shape (env : Env) (orderId productId : String) (q : Nat)
    (cs : List Card) (f : FulfillError)
    (he : claimCards env orderId productId q cs = .error f) :
    ∃ e, f = .dbError e := by
  unfold claimCards at he
  cases henv : env.reservedQueryError with
  | some e =>
    rw [henv] at he
    dsimp only at he
    cases hf : errorTriggersFallback e with
    | true =>
      rw [if_pos hf] at he
      by_cases hq : 0 < q
      · rw [if_pos hq] at he; cases he
      · rw [if_neg hq] at he; cases he
    | false =>
      rw [if_neg (by rw [hf]; exact Bool.false_ne_true)] at he
      injection he with he
      exact ⟨e, he.symm⟩
  | none =>
    rw [henv] at he
    dsimp only at he
    by_cases hlen : (claimReserved orderId env.now cs).2.length < q
    · rw [if_pos hlen] at he; cases he
    · rw [if_neg hlen] at he; cases he

/-- C3: the amount check.  For an existing order, a paid amount off by
more than 0.01 from the parsed order amount makes the call throw the
amount-mismatch error (an `Except.error` carries no state, so nothing is
written); a difference of at most 0.01 passes the check, and no
amount-mismatch error can be raised by the rest of the call. -/
theorem amount_mismatch_fatal (env : Env) (st : DBState) (orderId : String)
    (pa : ℚ) (tn : String) (order : Order)
    (hfind : st.orders.find? (fun o => o.orderId == orderId) = some order) :
    (1 / 100 < |pa - order.amount| →
      processOrderFulfillment env st orderId pa tn
        = .error (.amountMismatch order.amount pa))
    ∧ (|pa - order.amount| ≤ 1 / 100 →
      ∀ a b : ℚ, processOrderFulfillment env st orderId pa tn
        ≠ .error (.amountMismatch a b)) := by
  constructor
  · intro hlt
    unfold processOrderFulfillment
    rw [hfind]
    dsimp only
    rw [if_pos (by rw [mathAbs_eq_abs, ratSub_eq_sub, amountTolerance_eq]; exact hlt)]
  · intro hle a b
    unfold processOrderFulfillment
    rw [hfind]
    dsimp only
    rw [if_neg (by rw [mathAbs_eq_abs, ratSub_eq_sub, amountTolerance_eq]; exact not_lt.mpr hle)]
    by_cases hpay : env.isPaymentOrder order.productId = true
    · rw [if_pos hpay]
      split <;> simp
    · rw [if_neg hpay]
      by_cases hst : (order.status == "pending" || order.status == "cancelled") = true
      · rw [if_pos hst]
        by_cases hft : (((st.products.find? (fun p => p.id == order.productId)).bind
            (fun p => p.fulfillmentType)) == some "siyuan_token") = true
        · rw [if_pos hft]; simp
        · rw [if_neg hft]
          cases hclaim : claimCards env orderId order.productId (effQuantity order) st.cards with
          | error f =>
            dsimp only
            obtain ⟨e, rfl⟩ := claimCards_error_shape env orderId order.productId
              (effQuantity order) st.cards f hclaim
            simp
          | ok r =>
            dsimp only
            split <;> simp
      · rw [if_neg hst]
        simp

/-- Witness for C3: paying 2 against an order of amount 1 is rejected
with the amount-mismatch error. -/
theorem amount_mismatch_fatal_witness :
    processOrderFulfillment envW stRace "o1" 2 "t" = .error (.amountMismatch 1 2) :=
  (amount_mismatch_fatal envW stRace "o1" 2 "t" (orderW "o1" 1) (by decide)).1 (by norm_num [orderW])

/-- C4: idempotent no-op on a terminal state.  A non-payment-type order
whose status is neither pending nor cancelled (e.g. already delivered),
with the amount check passing, yields `already_processed` and the whole
database state unchanged (no order row and no card is mutated). -/
theorem already_processed_noop (env : Env) (st : DBState) (orderId : String)
    (pa : ℚ) (tn : String) (order : Order)
    (hfind : st.orders.find? (fun o => o.orderId == orderId) = some order)
    (hamt : |pa - order.amount| ≤ 1 / 100)
    (hpay : env.isPaymentOrder order.productId = false)
    (hp : order.status ≠ "pending") (hc : order.status ≠ "cancelled") :
    processOrderFulfillment env st orderId pa tn
      = .ok (st, { success := true, status := "already_processed" }) := by
  unfold processOrderFulfillment
  rw [hfind]
  dsimp only
  rw [if_neg (by rw [mathAbs_eq_abs, ratSub_eq_sub, amountTolerance_eq]; exact not_lt.mpr hamt)]
  rw [if_neg (by rw [hpay]; exact Bool.false_ne_true)]
  rw [if_neg (by simp [hp, hc])]

/-- Witness for C4: a second call on the delivered order of `stDone`
returns `already_processed` and leaves the state untouched. -/
theorem already_processed_noop_witness :
    processOrderFulfillment envW stDone "o1" 1 "t"
      = .ok (stDone, { success := true, status := "already_processed" }) :=
  already_processed_noop envW stDone "o1" 1 "t" orderD (by decide) (by norm_num [orderD])
    (by decide) (by decide) (by decide)

/-! ## The external-token path -/

theorem missing_userid_no_issuer (env : Env) (st : DBState) (orderId : String)
    (order : Order) (tn : String) (o0 : Order)
    (huid : order.userId.getD "" = "")
    (hfind : st.orders.find? (fun o => o.orderId == orderId) = some o0) :
    fulfillSiyuanToken env st orderId order tn
      = ({ st with orders := updateOrder st.orders orderId (paidUpdate env.now tn) },
         { success := true, status := "processed" })
    ∧ (∀ issue2, fulfillSiyuanToken { env with issue := issue2 } st orderId order tn
        = fulfillSiyuanToken env st orderId order tn)
    ∧ (fulfillSiyuanToken env st orderId order tn).1.orders.find? (fun o => o.orderId == orderId)
        = some { o0 with status := "paid", paidAt := some env.now, tradeNo := some tn }
    ∧ (fulfillSiyuanToken env st orderId order tn).1.cards = st.cards := by
  have heq : ∀ env2 : Env, env2.now = env.now → fulfillSiyuanToken env2 st orderId order tn
      = ({ st with orders := updateOrder st.orders orderId (paidUpdate env.now tn) },
         { success := true, status := "processed" }) := by
    intro env2 hnow
    unfold fulfillSiyuanToken
    rw [if_pos (by rw [beq_iff_eq]; exact huid)]
    rw [hnow]
  refine ⟨heq env rfl, ?_, ?_, ?_⟩
  · intro issue2
    rw [heq { env with issue := issue2 } rfl, heq env rfl]
  · rw [heq env rfl]
    dsimp only
    rw [find?_updateOrder st.orders orderId (paidUpdate env.now tn) (fun o => rfl), hfind]
    rfl
  · rw [heq env rfl]

/-- Witness for C9: the no-userId order of `stNoStock` is marked paid
without consulting the issuer. -/
theorem missing_userid_no_issuer_witness :
    fulfillSiyuanToken envW stNoStock "o1" (orderW "o1" 1) "t"
      = ({ stNoStock with orders := updateOrder stNoStock.orders "o1" (paidUpdate 1000 "t") },
         { success := true, status := "processed" }) :=
  (missing_userid_no_issuer envW stNoStock "o1" (orderW "o1" 1) "t" (orderW "o1" 1)
    (by decide) (by decide)).1

theorem collectTokensFrom_ext (issue1 issue2 : String → String → CreateTokenResult)
    (linuxDoId orderId : String) (quantity : Nat) :
    ∀ (rem i : Nat),
      (∀ j, i ≤ j → j < i + rem →
        issue1 linuxDoId (tokenName orderId quantity j)
          = issue2 linuxDoId (tokenName orderId quantity j)) →
      collectTokensFrom issue1 linuxDoId orderId quantity i rem
        = collectTokensFrom issue2 linuxDoId orderId quantity i rem := by
  intro rem
  induction rem with
  | zero => intro i _; rfl
  | succ m ih =>
    intro i hag
    unfold collectTokensFrom
    dsimp only
    have hrec := ih (i + 1) (fun j h1 h2 => hag j (by omega) (by omega))
    rw [hag i (le_refl i) (by omega), hrec]

theorem collectTokensFrom_stops (issue : String → String → CreateTokenResult)
    (linuxDoId orderId : String) (quantity : Nat) :
    ∀ (f i rem : Nat), f < rem →
      (∀ j, j < f → ((issue linuxDoId (tokenName orderId quantity (i + j))).success
          && (issue linuxDoId (tokenName orderId quantity (i + j))).token.getD "" != "") = true) →
      ((issue linuxDoId (tokenName orderId quantity (i + f))).success
          && (issue linuxDoId (tokenName orderId quantity (i + f))).token.getD "" != "") = false →
      (collectTokensFrom issue linuxDoId orderId quantity i rem).length = f := by
  intro f
  induction f with
  | zero =>
    intro i rem hf _ hfail
    cases rem with
    | zero => omega
    | succ m =>
      unfold collectTokensFrom
      dsimp only
      rw [Nat.add_zero] at hfail
      rw [hfail]
      simp
  | succ g ih =>
    intro i rem hf hok hfail
    cases rem with
    | zero => omega
    | succ m =>
      unfold collectTokensFrom
      dsimp only
      have h0 := hok 0 (Nat.succ_pos g)
      rw [Nat.add_zero] at h0
      rw [h0, if_pos rfl, List.length_cons]
      have hrec := ih (i + 1) m (by omega)
        (fun j hj => by
          have hj2 := hok (j + 1) (by omega)
          rw [show i + (j + 1) = i + 1 + j by omega] at hj2
          exact hj2)
        (by rw [show i + 1 + g = i + (g + 1) by omega]; exact hfail)
      omega

/-- C5 (amended): external-token fulfillment.  The issuer is consulted
only at the deterministic token names `ldc-shop-<orderId>` (suffixed
`-<unit>` when quantity > 1); the collection loop stops at the first
issuer failure; if that failure happens before any token was issued the
order is marked paid (retryable), but if at least one token was issued
the order is marked delivered with the partial tokens recorded in
`cardKey`. -/
theorem token_path_failure_behavior (env : Env) (st : DBState) (orderId : String)
    (order : Order) (tn : String) (o0 : Order)
    (huid : order.userId.getD "" ≠ "")
    (hfind : st.orders.find? (fun o => o.orderId == orderId) = some o0) :
    (∀ issue2 : String → String → CreateTokenResult,
      (∀ j, j < effQuantity order →
        issue2 (order.userId.getD "") (tokenName orderId (effQuantity order) j)
          = env.issue (order.userId.getD "") (tokenName orderId (effQuantity order) j)) →
      collectTokens issue2 (order.userId.getD "") orderId (effQuantity order)
        = collectTokens env.issue (order.userId.getD "") orderId (effQuantity order))
    ∧ (∀ f, f < effQuantity order →
      (∀ j, j < f →
        ((env.issue (order.userId.getD "") (tokenName orderId (effQuantity order) j)).success
          && (env.issue (order.userId.getD "") (tokenName orderId (effQuantity order) j)).token.getD ""
              != "") = true) →
      ((env.issue (order.userId.getD "") (tokenName orderId (effQuantity order) f)).success
          && (env.issue (order.userId.getD "") (tokenName orderId (effQuantity order) f)).token.getD ""
              != "") = false →
      (collectTokens env.issue (order.userId.getD "") orderId (effQuantity order)).length = f)
    ∧ (collectTokens env.issue (order.userId.getD "") orderId (effQuantity order) = [] →
      (fulfillSiyuanToken env st orderId order tn).1.orders.find? (fun o => o.orderId == orderId)
          = some { o0 with status := "paid", paidAt := some env.now, tradeNo := some tn }
        ∧ (fulfillSiyuanToken env st orderId order tn).2
          = { success := true, status := "processed" })
    ∧ (collectTokens env.issue (order.userId.getD "") orderId (effQuantity order) ≠ [] →
      (fulfillSiyuanToken env st orderId order tn).1.orders.find? (fun o => o.orderId == orderId)
          = some { o0 with
              status := "delivered", paidAt := some env.now,
              deliveredAt := some env.now, tradeNo := some tn,
              cardKey := some (String.intercalate "\n"
                (collectTokens env.issue (order.userId.getD "") orderId (effQuantity order))) }
        ∧ (fulfillSiyuanToken env st orderId order tn).2
          = { success := true, status := "processed" }) := by
  refine ⟨?_, ?_, ?_, ?_⟩
  · intro issue2 hag
    exact collectTokensFrom_ext issue2 env.issue (order.userId.getD "") orderId
      (effQuantity order) (effQuantity order) 0 (fun j h1 h2 => hag j (by omega))
  · intro f hf hok hfail
    exact collectTokensFrom_stops env.issue (order.userId.getD "") orderId
      (effQuantity order) f 0 (effQuantity order) hf
      (fun j hj => by simpa using hok j hj) (by simpa using hfail)
  · intro hnil
    have hff : fulfillSiyuanToken env st orderId order tn
        = ({ st with orders := updateOrder st.orders orderId (paidUpdate env.now tn) },
           { success := true, status := "processed" }) := by
      unfold fulfillSiyuanToken
      rw [if_neg (by simp [huid])]
      dsimp only
      rw [hnil]
      rfl
    rw [hff]
    refine ⟨?_, rfl⟩
    dsimp only
    rw [find?_updateOrder st.orders orderId (paidUpdate env.now tn) (fun o => rfl), hfind]
    rfl
  · intro hne
    have hlen : (collectTokens env.issue (order.userId.getD "") orderId (effQuantity order)).length > 0 :=
      List.length_pos.mpr hne
    have hff : fulfillSiyuanToken env st orderId order tn
        = ({ st with orders := updateOrder st.orders orderId (deliveredUpdate env.now tn (collectTokens env.issue (order.userId.getD "") orderId (effQuantity order))) },
           { success := true, status := "processed" }) := by
      unfold fulfillSiyuanToken
      rw [if_neg (by simp [huid])]
      dsimp only
      rw [if_pos hlen]
    rw [hff]
    refine ⟨?_, rfl⟩
    dsimp only
    rw [find?_updateOrder st.orders orderId
      (deliveredUpdate env.now tn (collectTokens env.issue (order.userId.getD "") orderId
        (effQuantity order))) (fun o => rfl), hfind]
    rfl

/-- Counterexample to C5 as stated: with a quantity-2 order whose issuer
succeeds for unit 1 and fails for unit 2, the order ends in status
`delivered` (with the single partial token), not `paid` as the claim
requires on issuer failure. -/
theorem token_partial_failure_counterexample :
    orderStatusAfter envTok1 stTok "o1" 1 "t" = some "delivered"
      ∧ some "delivered" ≠ some "paid" := by
  constructor
  · decide
  · decide

/-- Witness for the amended C5: in the same scenario the loop stops
after exactly one issued token. -/
theorem token_path_failure_behavior_witness :
    (collectTokens envTok1.issue "u7" "o1" 2).length = 1 := by
  have h := token_path_failure_behavior envTok1 stTok "o1" (orderU 2) "t" (orderU 2)
    (by decide) (by decide)
  exact h.2.1 1 (by decide)
    (fun j hj => by
      have hj0 : j = 0 := by omega
      subst hj0
      decide)
    (by decide)

/-! ## The card-pool transaction -/

theorem effQuantity_pos (o : Order) : 0 < effQuantity o := by
  unfold effQuantity
  split
  · exact Nat.one_pos
  · rename_i h
    simp only [beq_iff_eq] at h
    omega

theorem claimReserved_frame (orderId : String) (now : Nat) (cs : List Card)
    (i : Nat) (c : Card) (h : cs.get? i = some c)
    (hc : (c.reserved_order_id == some orderId && c.is_used.getD false == false) = false) :
    (claimReserved orderId now cs).1.get? i = some c := by
  rcases claimReserved_get orderId now cs i with h1 | ⟨c2, hc2, hcond, hout⟩
  · rw [h1, h]
  · rw [h] at hc2
    injection hc2 with hc2
    subst hc2
    rw [hc] at hcond
    cases hcond

theorem claimReserved_no_match (orderId : String) (now : Nat) (cs : List Card)
    (h : ∀ c ∈ cs, (c.reserved_order_id == some orderId && c.is_used.getD false == false) = false) :
    claimReserved orderId now cs = (cs, []) := by
  induction cs with
  | nil => rfl
  | cons c cs ih =>
    simp only [claimReserved]
    rw [h c (List.mem_cons_self c cs)]
    simp only [Bool.false_eq_true, if_false]
    rw [ih (fun c2 hc2 => h c2 (List.mem_cons_of_mem c hc2))]

/-- The card-pool branch of `processOrderFulfillment`, exposed as an
equation: under the hypotheses selecting that branch, the call is the
claim transaction followed by the delivered/paid order update. -/
theorem process_cardPool (env : Env) (st : DBState) (orderId : String)
    (pa : ℚ) (tn : String) (order : Order)
    (hfind : st.orders.find? (fun o => o.orderId == orderId) = some order)
    (hamt : |pa - order.amount| ≤ 1 / 100)
    (hpay : env.isPaymentOrder order.productId = false)
    (hst : (order.status == "pending" || order.status == "cancelled") = true)
    (hft : ((st.products.find? (fun p => p.id == order.productId)).bind
        (fun p => p.fulfillmentType)) ≠ some "siyuan_token") :
    processOrderFulfillment env st orderId pa tn
      = match claimCards env orderId order.productId (effQuantity order) st.cards with
        | .error e => .error e
        | .ok r =>
          if r.2.length > 0 then
            .ok ({ st with cards := r.1, orders := updateOrder st.orders orderId (deliveredUpdate env.now tn r.2) },
                 { success := true, status := "processed" })
          else
            .ok ({ st with cards := r.1, orders := updateOrder st.orders orderId (paidUpdate env.now tn) },
                 { success := true, status := "processed" }) := by
  unfold processOrderFulfillment
  rw [hfind]
  dsimp only
  rw [if_neg (by rw [mathAbs_eq_abs, ratSub_eq_sub, amountTolerance_eq]; exact not_lt.mpr hamt)]
  rw [if_neg (by rw [hpay]; exact Bool.false_ne_true)]
  rw [if_pos hst]
  rw [if_neg (by simpa using hft)]

/-- C10: when the card-pool claim yields zero cards, the order update
sets only status, paidAt and tradeNo: the row keeps its previous cardKey
and deliveredAt (cardKey is not set to an empty string), and the call
still succeeds with status `processed`. -/
theorem no_stock_frame (env : Env) (st : DBState) (orderId : String)
    (pa : ℚ) (tn : String) (order : Order) (cs2 : List Card)
    (hfind : st.orders.find? (fun o => o.orderId == orderId) = some order)
    (hamt : |pa - order.amount| ≤ 1 / 100)
    (hpay : env.isPaymentOrder order.productId = false)
    (hst : (order.status == "pending" || order.status == "cancelled") = true)
    (hft : ((st.products.find? (fun p => p.id == order.productId)).bind
        (fun p => p.fulfillmentType)) ≠ some "siyuan_token")
    (hclaim : claimCards env orderId order.productId (effQuantity order) st.cards = .ok (cs2, [])) :
    processOrderFulfillment env st orderId pa tn
      = .ok ({ st with cards := cs2, orders := updateOrder st.orders orderId (paidUpdate env.now tn) },
             { success := true, status := "processed" })
    ∧ (updateOrder st.orders orderId (paidUpdate env.now tn)).find? (fun o => o.orderId == orderId)
        = some { order with status := "paid", paidAt := some env.now, tradeNo := some tn }
    ∧ ({ order with status := "paid", paidAt := some env.now, tradeNo := some tn }).cardKey
        = order.cardKey
    ∧ ({ order with status := "paid", paidAt := some env.now, tradeNo := some tn }).deliveredAt
        = order.deliveredAt := by
  refine ⟨?_, ?_, rfl, rfl⟩
  · rw [process_cardPool env st orderId pa tn order hfind hamt hpay hst hft, hclaim]
    rfl
  · rw [find?_updateOrder st.orders orderId (paidUpdate env.now tn) (fun o => rfl), hfind]
    rfl

/-- Witness for C10: an order fulfilled against an empty pool is marked
paid; its cardKey and deliveredAt stay `none`. -/
theorem no_stock_frame_witness :
    processOrderFulfillment envW stNoStock "o1" 1 "t"
      = .ok ({ stNoStock with cards := [], orders := updateOrder stNoStock.orders "o1" (paidUpdate 1000 "t") },
             { success := true, status := "processed" }) :=
  (no_stock_frame envW stNoStock "o1" 1 "t" (orderW "o1" 1) [] (by decide)
    (by norm_num [orderW]) (by decide) (by decide) (by decide) (by decide)).1

theorem claimCards_no_reserved (env : Env) (orderId productId : String) (q : Nat)
    (cs : List Card) (henv : env.reservedQueryError = none) (hq : 0 < q)
    (hres : ∀ c ∈ cs, c.reserved_order_id ≠ some orderId) :
    claimCards env orderId productId q cs
      = .ok ((claimUpTo (poolEligible productId env.now) (markCardUsedClearRes env.now) q cs).1,
             (claimUpTo (poolEligible productId env.now) (markCardUsedClearRes env.now) q cs).2) := by
  have hcr : claimReserved orderId env.now cs = (cs, []) := by
    refine claimReserved_no_match orderId env.now cs (fun c hc => ?_)
    have := hres c hc
    simp [this]
  unfold claimCards
  rw [henv]
  dsimp only
  rw [hcr]
  simp only [List.length_nil]
  rw [if_pos hq, Nat.sub_zero, List.nil_append]

/-- Counterexample to C2 as stated: a pending order for 3 units over a
pool of exactly 2 free cards ends in status `delivered`, not `paid`. -/
theorem partial_stock_counterexample :
    orderStatusAfter envW stPartial "o1" 1 "t" = some "delivered"
      ∧ some "delivered" ≠ some "paid" :=
  ⟨by decide, by decide⟩

/-- C2 (amended): partial stock.  If the order is pending/cancelled on
the card-pool path, no card is reserved for it, and the number of
claimable cards is at least one but below the requested quantity, the
call commits the partial claim without throwing and ends the order in
status `delivered` (not `paid`), with cardKey holding exactly the keys
of all claimable cards. -/
theorem partial_stock_delivered (env : Env) (st : DBState) (orderId : String)
    (pa : ℚ) (tn : String) (order : Order)
    (hfind : st.orders.find? (fun o => o.orderId == orderId) = some order)
    (hamt : |pa - order.amount| ≤ 1 / 100)
    (hpay : env.isPaymentOrder order.productId = false)
    (hst : (order.status == "pending" || order.status == "cancelled") = true)
    (hft : ((st.products.find? (fun p => p.id == order.productId)).bind
        (fun p => p.fulfillmentType)) ≠ some "siyuan_token")
    (henv : env.reservedQueryError = none)
    (hres : ∀ c ∈ st.cards, c.reserved_order_id ≠ some orderId)
    (hE1 : 1 ≤ st.cards.countP (poolEligible order.productId env.now))
    (hEq : st.cards.countP (poolEligible order.productId env.now) < effQuantity order) :
    processOrderFulfillment env st orderId pa tn
      = .ok ({ st with
          cards := (claimUpTo (poolEligible order.productId env.now) (markCardUsedClearRes env.now) (effQuantity order) st.cards).1,
          orders := updateOrder st.orders orderId (deliveredUpdate env.now tn ((st.cards.filter (poolEligible order.productId env.now)).map (fun c => c.card_key))) },
          { success := true, status := "processed" })
    ∧ ((st.cards.filter (poolEligible order.productId env.now)).map (fun c => c.card_key)).length
        = st.cards.countP (poolEligible order.productId env.now)
    ∧ (updateOrder st.orders orderId (deliveredUpdate env.now tn ((st.cards.filter (poolEligible order.productId env.now)).map (fun c => c.card_key)))).find? (fun o => o.orderId == orderId)
        = some { order with
            status := "delivered", paidAt := some env.now, deliveredAt := some env.now,
            tradeNo := some tn,
            cardKey := some (String.intercalate "\n" ((st.cards.filter (poolEligible order.productId env.now)).map (fun c => c.card_key))) } := by
  have hkeys : (claimUpTo (poolEligible order.productId env.now) (markCardUsedClearRes env.now)
      (effQuantity order) st.cards).2
      = (st.cards.filter (poolEligible order.productId env.now)).map (fun c => c.card_key) :=
    claimUpTo_keys_of_countP_le _ _ _ _ (le_of_lt hEq)
  have hlen : (claimUpTo (poolEligible order.productId env.now) (markCardUsedClearRes env.now)
      (effQuantity order) st.cards).2.length
      = st.cards.countP (poolEligible order.productId env.now) :=
    claimUpTo_keys_length_eq _ _ _ _ (le_of_lt hEq)
  refine ⟨?_, ?_, ?_⟩
  · rw [process_cardPool env st orderId pa tn order hfind hamt hpay hst hft,
      claimCards_no_reserved env orderId order.productId (effQuantity order) st.cards henv
        (effQuantity_pos order) hres]
    dsimp only
    rw [if_pos (by rw [hlen]; omega)]
    rw [hkeys]
  · rw [← hkeys, hlen]
  · rw [find?_updateOrder st.orders orderId (deliveredUpdate env.now tn ((st.cards.filter (poolEligible order.productId env.now)).map (fun c => c.card_key))) (fun o => rfl), hfind]
    rfl

/-- Witness for the amended C2: 2 claimable cards, quantity 3: the order
is delivered with exactly the two keys `K1` and `K2`. -/
theorem partial_stock_delivered_witness :
    processOrderFulfillment envW stPartial "o1" 1 "t"
      = .ok ({ stPartial with
          cards := (claimUpTo (poolEligible (orderW "o1" 3).productId envW.now) (markCardUsedClearRes envW.now) (effQuantity (orderW "o1" 3)) stPartial.cards).1,
          orders := updateOrder stPartial.orders "o1" (deliveredUpdate envW.now "t" ((stPartial.cards.filter (poolEligible (orderW "o1" 3).productId envW.now)).map (fun c => c.card_key))) },
          { success := true, status := "processed" }) :=
  (partial_stock_delivered envW stPartial "o1" 1 "t" (orderW "o1" 3) (by decide)
    (by norm_num [orderW]) (by decide) (by decide) (by decide) (by decide)
    (by decide) (by decide) (by decide)).1

/-- C6: reserved-card precedence.  Inside the card-pool transaction the
reserved-claim query runs first and returns exactly the keys of the
cards reserved for this order (and not yet used); cards not reserved for
this order are untouched by it; when the reserved cards cover the
quantity the transaction commits right after it (no general-pool claim
runs), and otherwise the general pool is drawn with a limit equal to the
remaining shortfall, its keys appended after the reserved keys. -/
theorem reserved_card_precedence (env : Env) (st : DBState) (orderId : String)
    (pa : ℚ) (tn : String) (order : Order)
    (hfind : st.orders.find? (fun o => o.orderId == orderId) = some order)
    (hamt : |pa - order.amount| ≤ 1 / 100)
    (hpay : env.isPaymentOrder order.productId = false)
    (hst : (order.status == "pending" || order.status == "cancelled") = true)
    (hft : ((st.products.find? (fun p => p.id == order.productId)).bind
        (fun p => p.fulfillmentType)) ≠ some "siyuan_token")
    (henv : env.reservedQueryError = none) :
    (claimReserved orderId env.now st.cards).2
        = (st.cards.filter (fun c => c.reserved_order_id == some orderId
            && c.is_used.getD false == false)).map (fun c => c.card_key)
    ∧ (∀ i c, st.cards.get? i = some c →
        (c.reserved_order_id == some orderId && c.is_used.getD false == false) = false →
        (claimReserved orderId env.now st.cards).1.get? i = some c)
    ∧ (effQuantity order ≤ (claimReserved orderId env.now st.cards).2.length →
        processOrderFulfillment env st orderId pa tn
          = .ok ({ st with cards := (claimReserved orderId env.now st.cards).1, orders := updateOrder st.orders orderId (deliveredUpdate env.now tn (claimReserved orderId env.now st.cards).2) },
              { success := true, status := "processed" }))
    ∧ ((claimReserved orderId env.now st.cards).2.length < effQuantity order →
        (claimUpTo (poolEligible order.productId env.now) (markCardUsedClearRes env.now) (effQuantity order - (claimReserved orderId env.now st.cards).2.length) (claimReserved orderId env.now st.cards).1).2.length
            ≤ effQuantity order - (claimReserved orderId env.now st.cards).2.length
        ∧ processOrderFulfillment env st orderId pa tn
            = (if ((claimReserved orderId env.now st.cards).2 ++ (claimUpTo (poolEligible order.productId env.now) (markCardUsedClearRes env.now) (effQuantity order - (claimReserved orderId env.now st.cards).2.length) (claimReserved orderId env.now st.cards).1).2).length > 0 then
                .ok ({ st with cards := (claimUpTo (poolEligible order.productId env.now) (markCardUsedClearRes env.now) (effQuantity order - (claimReserved orderId env.now st.cards).2.length) (claimReserved orderId env.now st.cards).1).1, orders := updateOrder st.orders orderId (deliveredUpdate env.now tn ((claimReserved orderId env.now st.cards).2 ++ (claimUpTo (poolEligible order.productId env.now) (markCardUsedClearRes env.now) (effQuantity order - (claimReserved orderId env.now st.cards).2.length) (claimReserved orderId env.now st.cards).1).2)) },
                    { success := true, status := "processed" })
              else
                .ok ({ st with cards := (claimUpTo (poolEligible order.productId env.now) (markCardUsedClearRes env.now) (effQuantity order - (claimReserved orderId env.now st.cards).2.length) (claimReserved orderId env.now st.cards).1).1, orders := updateOrder st.orders orderId (paidUpdate env.now tn) },
                    { success := true, status := "processed" }))) := by
  refine ⟨claimReserved_keys orderId env.now st.cards,
    fun i c hi hc => claimReserved_frame orderId env.now st.cards i c hi hc, ?_, ?_⟩
  · intro hq
    have hclaim : claimCards env orderId order.productId (effQuantity order) st.cards
        = .ok ((claimReserved orderId env.now st.cards).1, (claimReserved orderId env.now st.cards).2) := by
      unfold claimCards
      rw [henv]
      dsimp only
      rw [if_neg (not_lt.mpr hq)]
    rw [process_cardPool env st orderId pa tn order hfind hamt hpay hst hft, hclaim]
    dsimp only
    rw [if_pos (by have := effQuantity_pos order; omega)]
  · intro hq
    refine ⟨claimUpTo_keys_length _ _ _ _, ?_⟩
    have hclaim : claimCards env orderId order.productId (effQuantity order) st.cards
        = .ok ((claimUpTo (poolEligible order.productId env.now) (markCardUsedClearRes env.now) (effQuantity order - (claimReserved orderId env.now st.cards).2.length) (claimReserved orderId env.now st.cards).1).1,
               (claimReserved orderId env.now st.cards).2 ++ (claimUpTo (poolEligible order.productId env.now) (markCardUsedClearRes env.now) (effQuantity order - (claimReserved orderId env.now st.cards).2.length) (claimReserved orderId env.now st.cards).1).2) := by
      unfold claimCards
      rw [henv]
      dsimp only
      rw [if_pos hq]
    rw [process_cardPool env st orderId pa tn order hfind hamt hpay hst hft, hclaim]

/-- Witness for C6: the pending one-unit order `o1` of `stReserved` has
its reserved card; the reserved claim alone fulfills it. -/
theorem reserved_card_precedence_witness :
    processOrderFulfillment envW stReserved "o1" 1 "t"
      = .ok ({ stReserved with cards := (claimReserved "o1" envW.now stReserved.cards).1, orders := updateOrder stReserved.orders "o1" (deliveredUpdate envW.now "t" (claimReserved "o1" envW.now stReserved.cards).2) },
          { success := true, status := "processed" }) :=
  (reserved_card_precedence envW stReserved "o1" 1 "t" (orderW "o1" 1) (by decide)
    (by norm_num [orderW]) (by decide) (by decide) (by decide) rfl).2.2.1 (by decide)

/-- C7: the general-pool claim query.  It returns at most `needed` keys;
every row is either left unchanged or was a candidate (matching
product, `COALESCE(is_used,false) = false`, reservation absent or
expired more than a minute ago) and is rewritten to used with its
reservation cleared; a row with a live reservation, even for another
order, is never touched. -/
theorem pool_claim_candidate_set (pid : String) (now needed : Nat) (cs : List Card) :
    (claimUpTo (poolEligible pid now) (markCardUsedClearRes now) needed cs).2.length ≤ needed
    ∧ (∀ i, (claimUpTo (poolEligible pid now) (markCardUsedClearRes now) needed cs).1.get? i = cs.get? i
        ∨ ∃ c, cs.get? i = some c
            ∧ c.product_id = pid ∧ c.is_used.getD false = false
            ∧ (c.reserved_at = none ∨ ∃ r, c.reserved_at = some r ∧ r + 60 < now)
            ∧ (claimUpTo (poolEligible pid now) (markCardUsedClearRes now) needed cs).1.get? i
                = some { c with is_used := some true, used_at := some now, reserved_order_id := none, reserved_at := none })
    ∧ (∀ i c r, cs.get? i = some c → c.reserved_at = some r → ¬ r + 60 < now →
        (claimUpTo (poolEligible pid now) (markCardUsedClearRes now) needed cs).1.get? i = some c) := by
  refine ⟨claimUpTo_keys_length _ _ _ _, ?_, ?_⟩
  · intro i
    rcases claimUpTo_get (poolEligible pid now) (markCardUsedClearRes now) needed cs i with h1 | ⟨c, hc, helig, hout⟩
    · exact Or.inl h1
    · refine Or.inr ⟨c, hc, ?_, ?_, ?_, hout⟩
      · have h2 := helig
        unfold poolEligible at h2
        rw [Bool.and_eq_true, Bool.and_eq_true] at h2
        exact beq_iff_eq.mp h2.1.1
      · have h2 := helig
        unfold poolEligible at h2
        rw [Bool.and_eq_true, Bool.and_eq_true] at h2
        exact beq_iff_eq.mp h2.1.2
      · have h2 := helig
        unfold poolEligible at h2
        rw [Bool.and_eq_true, Bool.and_eq_true] at h2
        have h3 := h2.2
        unfold reservationFreeOrExpired at h3
        cases hr : c.reserved_at with
        | none => exact Or.inl rfl
        | some r =>
          rw [hr] at h3
          simp only [decide_eq_true_eq] at h3
          exact Or.inr ⟨r, rfl, h3⟩
  · intro i c r hi hr hlive
    rcases claimUpTo_get (poolEligible pid now) (markCardUsedClearRes now) needed cs i with h1 | ⟨c2, hc2, helig, hout⟩
    · rw [h1, hi]
    · rw [hi] at hc2
      injection hc2 with hc2
      subst hc2
      exfalso
      unfold poolEligible at helig
      rw [Bool.and_eq_true, Bool.and_eq_true] at helig
      have h3 := helig.2
      unfold reservationFreeOrExpired at h3
      rw [hr] at h3
      simp only [decide_eq_true_eq] at h3
      exact hlive h3

/-- Witness for C7: a live-reserved card (reserved for another order 10
seconds ago) survives a pool claim of limit 1 untouched. -/
theorem pool_claim_candidate_set_witness :
    (claimUpTo (poolEligible "p" 1000) (markCardUsedClearRes 1000) 1 [cardLive]).1.get? 0
      = some cardLive :=
  (pool_claim_candidate_set "p" 1000 1 [cardLive]).2.2 0 cardLive 990 (by decide) (by decide)
    (by decide)

/-- C8: the legacy-schema shim.  When the reserved-card claim query
fails with an error whose message mentions `reserved_order_id` or
`reserved_at`, or whose serialized form contains `42703`, fulfillment
does not fail: it falls back to the non-reserving claim query (which
ignores the reservation columns) and completes normally; any other error
from that query is rethrown out of the transaction. -/
theorem legacy_schema_shim (env : Env) (st : DBState) (orderId : String)
    (pa : ℚ) (tn : String) (order : Order) (e : DBError)
    (hfind : st.orders.find? (fun o => o.orderId == orderId) = some order)
    (hamt : |pa - order.amount| ≤ 1 / 100)
    (hpay : env.isPaymentOrder order.productId = false)
    (hst : (order.status == "pending" || order.status == "cancelled") = true)
    (hft : ((st.products.find? (fun p => p.id == order.productId)).bind
        (fun p => p.fulfillmentType)) ≠ some "siyuan_token")
    (henv : env.reservedQueryError = some e) :
    ((strIncludes e.message "reserved_order_id" || strIncludes e.message "reserved_at"
        || strIncludes e.serialized "42703") = true →
      processOrderFulfillment env st orderId pa tn
        = (if (claimUpTo (legacyEligible order.productId) (markCardUsedLegacy env.now) (effQuantity order) st.cards).2.length > 0 then
            .ok ({ st with cards := (claimUpTo (legacyEligible order.productId) (markCardUsedLegacy env.now) (effQuantity order) st.cards).1, orders := updateOrder st.orders orderId (deliveredUpdate env.now tn (claimUpTo (legacyEligible order.productId) (markCardUsedLegacy env.now) (effQuantity order) st.cards).2) },
                { success := true, status := "processed" })
          else
            .ok ({ st with cards := (claimUpTo (legacyEligible order.productId) (markCardUsedLegacy env.now) (effQuantity order) st.cards).1, orders := updateOrder st.orders orderId (paidUpdate env.now tn) },
                { success := true, status := "processed" })))
    ∧ ((strIncludes e.message "reserved_order_id" || strIncludes e.message "reserved_at"
        || strIncludes e.serialized "42703") = false →
      processOrderFulfillment env st orderId pa tn = .error (.dbError e)) := by
  constructor
  · intro hmatch
    have hm : errorTriggersFallback e = true := by
      unfold errorTriggersFallback
      exact hmatch
    have hclaim : claimCards env orderId order.productId (effQuantity order) st.cards
        = .ok ((claimUpTo (legacyEligible order.productId) (markCardUsedLegacy env.now) (effQuantity order) st.cards).1,
               (claimUpTo (legacyEligible order.productId) (markCardUsedLegacy env.now) (effQuantity order) st.cards).2) := by
      unfold claimCards
      rw [henv]
      dsimp only
      rw [if_pos hm, if_pos (effQuantity_pos order)]
    rw [process_cardPool env st orderId pa tn order hfind hamt hpay hst hft, hclaim]
  · intro hmatch
    have hm : errorTriggersFallback e = false := by
      unfold errorTriggersFallback
      exact hmatch
    have hclaim : claimCards env orderId order.productId (effQuantity order) st.cards
        = .error (.dbError e) := by
      unfold claimCards
      rw [henv]
      dsimp only
      rw [if_neg (by rw [hm]; exact Bool.false_ne_true)]
    rw [process_cardPool env st orderId pa tn order hfind hamt hpay hst hft, hclaim]

/-- Witness for C8: a missing-column error (its message names
`reserved_order_id`) falls back to the legacy claim and delivers the
order, while an unrelated error (a deadlock) is rethrown. -/
theorem legacy_schema_shim_witness :
    processOrderFulfillment envLegacy stRace "o1" 1 "t"
      = .ok ({ stRace with cards := [markCardUsedLegacy 1000 (cardW 1)], orders := updateOrder stRace.orders "o1" (deliveredUpdate 1000 "t" ["K1"]) },
          { success := true, status := "processed" })
    ∧ processOrderFulfillment envBoom stRace "o1" 1 "t"
      = .error (.dbError ⟨"deadlock detected", "40P01"⟩) := by
  constructor
  · have h := (legacy_schema_shim envLegacy stRace "o1" 1 "t" (orderW "o1" 1)
      ⟨"column reserved_order_id does not exist", "42703"⟩ (by decide)
      (by norm_num [orderW]) (by decide) (by decide) (by decide) rfl).1 (by decide)
    rw [h]
    decide
  · exact (legacy_schema_shim envBoom stRace "o1" 1 "t" (orderW "o1" 1)
      ⟨"deadlock detected", "40P01"⟩ (by decide) (by norm_num [orderW]) (by decide)
      (by decide) (by decide) rfl).2 (by decide)
